import Mathlib

/-!
Verification of the discovery-merge-classification pipeline of scraper.py.

The pure decision logic of the script (name cleaning, category scoring,
HQ guessing, fit/classification assignment, merging/deduplication, and the
error-skipping runner loops) is embedded as executable Lean definitions,
translated line by line from the Python source.  Network access
(requests), HTML parsing (BeautifulSoup) and CSV persistence are external
collaborators of the script; they enter the model only as abstract
function parameters (a page fetcher `String -> String`, fallible
providers `String -> Option _`) and as the `Row` record type mirroring
the nine CSV columns.
-/

set_option maxRecDepth 20000

namespace Scraper

/-- Decides whether `needle` is a prefix of `hay` (character lists). -/
def hasPrefixL : List Char → List Char → Bool
  | [], _ => true
  | _ :: _, [] => false
  | n :: ns, h :: hs => n == h && hasPrefixL ns hs

/-- Decides whether `needle` occurs as a contiguous substring of `hay`
(character lists), like the Python `needle in hay` test on strings. -/
def containsL (needle : List Char) : List Char → Bool
  | [] => hasPrefixL needle []
  | c :: hs => hasPrefixL needle (c :: hs) || containsL needle hs

/-- Python `needle in hay` for strings: substring containment. -/
def strContains (hay needle : String) : Bool :=
  containsL needle.data hay.data

/-- Python whitespace class for `\s` / `str.split()` (ASCII part). -/
def isSpacePy (c : Char) : Bool :=
  c == ' ' || c == '\t' || c == '\n' || c == '\r' || c == '\x0b' || c == '\x0c'

/-- Python `str.lower()` (ASCII). -/
def strLower (s : String) : String :=
  ⟨s.data.map Char.toLower⟩

/-- Python `str.upper()` (ASCII). -/
def strUpper (s : String) : String :=
  ⟨s.data.map Char.toUpper⟩

/-- Python `str.strip()` on a character list. -/
def trimL (l : List Char) : List Char :=
  ((l.dropWhile isSpacePy).reverse.dropWhile isSpacePy).reverse

/-- Python `str.strip()`. -/
def strTrim (s : String) : String :=
  ⟨trimL s.data⟩

/-- Splits a character list at every character satisfying `p`, keeping
empty fragments, like Python `str.split(sep)` for a one-character `sep`
(with `p` testing for that character). -/
def splitPredL (p : Char → Bool) : List Char → List (List Char)
  | [] => [[]]
  | c :: rest =>
    let r := splitPredL p rest
    if p c then [] :: r
    else
      match r with
      | [] => [[c]]
      | h :: t => (c :: h) :: t

/-- Python `s.split(sep)` for a one-character separator. -/
def splitOnCharL (sep : Char) (l : List Char) : List (List Char) :=
  splitPredL (fun c => c == sep) l

/-- Number of words of a string, Python `len(s.split())`: split on
whitespace runs, empty fragments dropped. -/
def pyWordCount (s : String) : Nat :=
  ((splitPredL isSpacePy s.data).filter (fun w => !w.isEmpty)).length

/-- Python `str.title()` (ASCII): the first letter after a non-letter is
upper-cased, every other letter lower-cased. -/
def pyTitleGo : List Char → Bool → List Char
  | [], _ => []
  | c :: cs, prevAlpha =>
    if c.isAlpha then
      (if prevAlpha then c.toLower else c.toUpper) :: pyTitleGo cs true
    else
      c :: pyTitleGo cs false

/-- Python `str.title()` on a string. -/
def pyTitle (s : String) : String :=
  ⟨pyTitleGo s.data false⟩

/-- `domain_from_url` from scraper.py: `url.split("/")[2].lower()`, falling
back to `url.lower()` on IndexError. -/
def domain_from_url (url : String) : String :=
  match splitOnCharL '/' url.data with
  | _ :: _ :: d :: _ => strLower ⟨d⟩
  | _ => strLower url

/-- The separator characters of `clean_result_name`'s split pattern. -/
def SEPARATOR_CHARS : List Char := ['|', '–', '—', '-', ':']

/-- Splits a character list at every separator character.  The Python code
splits on a regex that also consumes whitespace around each separator;
since every resulting part is immediately stripped and empty parts are
dropped, splitting at the bare separator characters yields the same
final part list. -/
def splitOnSeps (l : List Char) : List (List Char) :=
  splitPredL (fun c => SEPARATOR_CHARS.contains c) l

/-- The `marketing_words` set inside `clean_result_name`. -/
def MARKETING_WORDS : List String :=
  ["managed", "services", "service", "cloud", "it", "support", "cybersecurity",
   "security", "hedge", "fund", "trading", "infrastructure", "platform",
   "managed services", "consulting", "implementation", "solutions"]

/-- `looks_like_marketing` inside `clean_result_name`: some marketing word
occurs in the lower-cased text. -/
def looks_like_marketing (text : String) : Bool :=
  MARKETING_WORDS.any (fun w => strContains (strLower text) w)

/-- `clean_result_name` from scraper.py. -/
def clean_result_name (title domain_fallback : String) : String :=
  if title = "" then domain_fallback
  else
    let parts :=
      ((splitOnSeps title.data).map (fun l => (⟨trimL l⟩ : String))).filter
        (fun p => !(p == ""))
    match parts with
    | [] => if strTrim title = "" then domain_fallback else strTrim title
    | base :: rest =>
      let brand := match rest.getLast? with
        | some b => b
        | none => ""
      if brand ≠ "" ∧ pyWordCount brand ≤ 6 ∧ looks_like_marketing brand = false then
        brand
      else if brand ≠ "" ∧ looks_like_marketing base = true ∧
          looks_like_marketing brand = false then
        brand
      else if base = "" then domain_fallback else base

/-- `FINANCE_KEYWORDS` from scraper.py. -/
def FINANCE_KEYWORDS : List String :=
  ["hedge fund", "alternative investment", "asset management",
   "broker-dealer", "broker dealer", "investment manager",
   "private equity", "family office", "trading firm", "proprietary trading"]

/-- `MSP_KEYWORDS` from scraper.py. -/
def MSP_KEYWORDS : List String :=
  ["managed services", "managed it", "outsourced", "24x7 support",
   "24/7 support", "service level agreement", "sla", "help desk", "monitoring"]

/-- `MARKET_DATA_KEYWORDS` from scraper.py. -/
def MARKET_DATA_KEYWORDS : List String :=
  ["market data", "market-data", "data feeds", "entitlements",
   "exchange reporting", "vendor management", "dacs", "inventory"]

/-- `TRADING_INFRA_KEYWORDS` from scraper.py. -/
def TRADING_INFRA_KEYWORDS : List String :=
  ["trading infrastructure", "low latency", "low-latency", "colocation",
   "proximity hosting", "exchange connectivity", "fix connectivity"]

/-- `OMS_EMS_KEYWORDS` from scraper.py. -/
def OMS_EMS_KEYWORDS : List String :=
  ["oms", "order management system", "ems", "execution management system",
   "trading platform implementation", "trading system implementation",
   "fix onboarding"]

/-- `REG_OPS_KEYWORDS` from scraper.py. -/
def REG_OPS_KEYWORDS : List String :=
  ["trade surveillance", "best execution", "best-execution",
   "outsourced compliance", "regulatory reporting", "finra", "sec rule"]

/-- Number of keywords of a lexicon occurring as substrings of the text,
Python `sum(1 for k in KEYWORDS if k in text)`. -/
def countHits (keywords : List String) (text : String) : Nat :=
  keywords.countP (fun k => strContains text k)

/-- The six category labels, in the insertion order of the Python `score`
dict (that order breaks ties in `max(score, key=score.get)`). -/
def CATEGORIES : List String :=
  ["Financial MSP", "Trading Infra MSP", "Market Data Ops",
   "OMS/EMS & FIX", "RegOps / Surveillance", "Generic IT"]

/-- Python `max(score, key=score.get)` over an association list in
insertion order: the first key with the maximal value (later entries
replace the running best only on a strictly greater value). -/
def pickMax : List (String × Nat) → String × Nat
  | [] => ("", 0)
  | p :: rest => rest.foldl (fun best q => if q.2 > best.2 then q else best) p

/-- `score[c]` lookup in the association list of category scores. -/
def lookupScore (score : List (String × Nat)) (c : String) : Nat :=
  match score.find? (fun p => p.1 == c) with
  | some p => p.2
  | none => 0

/-- The `score` dict of `classify_category` with its six entries in
insertion order, abstracted over the six already-computed scores. -/
def scoreTable (finScore tradingScore mdScore omsScore regScore genScore : Nat) :
    List (String × Nat) :=
  [("Financial MSP", finScore), ("Trading Infra MSP", tradingScore),
   ("Market Data Ops", mdScore), ("OMS/EMS & FIX", omsScore),
   ("RegOps / Surveillance", regScore), ("Generic IT", genScore)]

/-- The tail of `classify_category` after the score dict is filled: pick
the best-scoring category (first wins ties), fall back to Generic IT when
the maximum is zero, and apply the final finance+MSP override. -/
def finishScore (score : List (String × Nat)) (finance_hits msp_hits : Nat) : String :=
  let best := pickMax score
  let cat := if best.2 = 0 then "Generic IT" else best.1
  if 0 < finance_hits ∧ 0 < msp_hits ∧
      lookupScore score "Financial MSP" ≥ lookupScore score cat
  then "Financial MSP" else cat

/-- `classify_category` from scraper.py, split on the six hit counts so
that the scoring logic can be reasoned about independently of the
substring counting. -/
def classifyScores (finance_hits msp_hits trading_hits md_hits oms_hits reg_hits : Nat)
    (fxInText : Bool) : String :=
  let finScore :=
    if finance_hits > 0 ∧ msp_hits > 0 then finance_hits * 3 + msp_hits * 2
    else if finance_hits > 0 then finance_hits * 2
    else if msp_hits > 0 then msp_hits
    else 0
  let tradingScore := if trading_hits > 0 then trading_hits * 3 else 0
  let mdScore := if md_hits > 0 then md_hits * 3 else 0
  let omsScore :=
    if oms_hits ≥ 2 then oms_hits * 3
    else if oms_hits = 1 ∧ (trading_hits > 0 ∨ md_hits > 0 ∨ fxInText = true) then 3
    else 0
  let regScore := if reg_hits > 0 then reg_hits * 3 else 0
  let genScore :=
    if msp_hits > 0 ∧ finance_hits = 0 ∧ trading_hits = 0 ∧ md_hits = 0 ∧
        oms_hits = 0 ∧ reg_hits = 0 then 1
    else 0
  finishScore (scoreTable finScore tradingScore mdScore omsScore regScore genScore)
    finance_hits msp_hits

/-- `classify_category` from scraper.py: count the lexicon hits, score the
six categories, pick the best with first-wins tie-breaking, fall back to
Generic IT on an all-zero score, and apply the finance+MSP override. -/
def classify_category (text : String) : String :=
  classifyScores (countHits FINANCE_KEYWORDS text) (countHits MSP_KEYWORDS text)
    (countHits TRADING_INFRA_KEYWORDS text) (countHits MARKET_DATA_KEYWORDS text)
    (countHits OMS_EMS_KEYWORDS text) (countHits REG_OPS_KEYWORDS text)
    (strContains text "fx")

/-- `classify_fit` from scraper.py. -/
def classify_fit (category : String) : String :=
  if category = "Generic IT" then "Stretch" else "Core"

/-- The `core_lanes` set inside `classify_firm`. -/
def CORE_LANES : List String :=
  ["Financial MSP", "Trading Infra MSP", "Market Data Ops",
   "OMS/EMS & FIX", "RegOps / Surveillance"]

/-- `classify_firm` from scraper.py, reading the just-assigned Fit and
Category fields of the row. -/
def classify_firm (fit category : String) : String :=
  if fit = "Core" ∧ CORE_LANES.contains category then
    "Potential acquisition target (near-term)"
  else "Pattern / Comp / Future Partner"

/-- Python sequential `replace` of a two-character pattern by a
two-character replacement, left to right, non-overlapping. -/
def replace2 (a b r1 r2 : Char) : List Char → List Char
  | [] => []
  | [c] => [c]
  | x :: y :: rest =>
    if x == a && y == b then r1 :: r2 :: replace2 a b r1 r2 rest
    else x :: replace2 a b r1 r2 (y :: rest)

/-- `normalize_hq` from scraper.py: strip, canonicalize Uk/uk to UK, and
for a two-comma-part string title-case the city and upper-case the
region. -/
def normalize_hq (hq : String) : String :=
  if hq = "" then ""
  else
    let hq1 := trimL hq.data
    let hq2 : String := ⟨replace2 'u' 'k' 'U' 'K' (replace2 'U' 'k' 'U' 'K' hq1)⟩
    let parts := (splitOnCharL ',' hq2.data).map (fun l => (⟨trimL l⟩ : String))
    match parts with
    | [city, state] => pyTitle city ++ ", " ++ strUpper state
    | _ => pyTitle hq2

/-- A CSV row of the pipeline: the nine columns Name, Website, HQ,
Category, Fit (Core/Stretch), Notes, Source, Conference, Classification. -/
structure Row where
  name : String
  website : String
  hq : String
  category : String
  fit : String
  notes : String
  source : String
  conference : String
  classification : String
deriving DecidableEq

/-- `KNOWN_FINANCIAL_MSPS` from scraper.py (domain override allow-list). -/
def KNOWN_FINANCIAL_MSPS : List String :=
  ["ceutechnologies.com", "omegasystemscorp.com", "thrivenextgen.com",
   "aag-it.com", "silverlinetech.com", "eze-castle.com"]

/-- `KNOWN_COMP_NAMES` from scraper.py (name override allow-list). -/
def KNOWN_COMP_NAMES : List String :=
  ["bloomberg", "eurex", "cme group"]

/-- Abstract syntax of the small regular-expression fragment used by
`guess_hq`: literals, ordered literal alternation, character classes with
greedy `*`, `+` and bounded repetition, an optional group, capturing
groups, and the word boundary `\b`. -/
inductive RE where
  | lit (s : List Char)
  | strs (ss : List (List Char))
  | cls (p : Char → Bool)
  | cat (a b : RE)
  | star (p : Char → Bool)
  | plus (p : Char → Bool)
  | rep (p : Char → Bool) (lo hi : Nat)
  | opt (a : RE)
  | grp (n : Nat) (a : RE)
  | wb

/-- Consumes a literal from the front of the input, returning the rest. -/
def eatLit : List Char → List Char → Option (List Char)
  | [], hay => some hay
  | _ :: _, [] => none
  | n :: ns, h :: hs => if n == h then eatLit ns hs else none

/-- The last character of `l`, or the default when `l` is empty (used to
track the character preceding the current position for `\b`). -/
def lastOr (l : List Char) (d : Option Char) : Option Char :=
  match l.getLast? with
  | some c => some c
  | none => d

/-- Python `\w` (ASCII): letters, digits and underscore. -/
def isWordChar (c : Char) : Bool :=
  c.isAlphanum || c == '_'

/-- Word test lifted to the optional character at a string edge. -/
def isWordOpt : Option Char → Bool
  | some c => isWordChar c
  | none => false

/-- Backtracking regex matcher in continuation-passing style, following
Python's leftmost, greedy semantics.  `inp` is the remaining input,
`prev` the character before it, `caps` the captures collected so far and
`k` the continuation for the rest of the pattern; quantifiers offer
match lengths to `k` from longest to shortest, and alternatives are
offered left to right. -/
def reM (re : RE) (inp : List Char) (prev : Option Char)
    (caps : List (Nat × List Char))
    (k : List Char → Option Char → List (Nat × List Char) →
      Option (List (Nat × List Char))) :
    Option (List (Nat × List Char)) :=
  match re with
  | RE.lit s =>
    match eatLit s inp with
    | some rest => k rest (lastOr s prev) caps
    | none => none
  | RE.strs ss =>
    ss.findSome? (fun s =>
      match eatLit s inp with
      | some rest => k rest (lastOr s prev) caps
      | none => none)
  | RE.cls p =>
    match inp with
    | [] => none
    | c :: rest => if p c then k rest (some c) caps else none
  | RE.cat a b =>
    reM a inp prev caps (fun inp2 prev2 caps2 => reM b inp2 prev2 caps2 k)
  | RE.star p =>
    let run := (inp.takeWhile p).length
    (List.range (run + 1)).reverse.findSome? (fun n =>
      k (inp.drop n) (lastOr (inp.take n) prev) caps)
  | RE.plus p =>
    let run := (inp.takeWhile p).length
    ((List.range run).map (fun n => n + 1)).reverse.findSome? (fun n =>
      k (inp.drop n) (lastOr (inp.take n) prev) caps)
  | RE.rep p lo hi =>
    let run := min (inp.takeWhile p).length hi
    ((List.range (run + 1)).reverse.filter (fun n => lo ≤ n)).findSome? (fun n =>
      k (inp.drop n) (lastOr (inp.take n) prev) caps)
  | RE.opt a =>
    match reM a inp prev caps k with
    | some r => some r
    | none => k inp prev caps
  | RE.grp n a =>
    reM a inp prev caps (fun inp2 prev2 caps2 =>
      k inp2 prev2 ((n, inp.take (inp.length - inp2.length)) :: caps2))
  | RE.wb =>
    if isWordOpt prev != isWordOpt inp.head? then k inp prev caps else none

/-- `re.search`: tries to match the pattern at every start position, left
to right, returning the first match's captures. -/
def reSearchAux (r : RE) : List Char → Option Char → Option (List (Nat × List Char))
  | [], prev => reM r [] prev [] (fun _ _ caps => some caps)
  | c :: rest, prev =>
    match reM r (c :: rest) prev [] (fun _ _ caps => some caps) with
    | some caps => some caps
    | none => reSearchAux r rest (some c)

/-- `re.search` over a string. -/
def reSearch (r : RE) (t : String) : Option (List (Nat × List Char)) :=
  reSearchAux r t.data none

/-- `m.group(n)`: the capture recorded for group `n`. -/
def capGet (caps : List (Nat × List Char)) (n : Nat) : Option String :=
  match caps.find? (fun p => p.1 == n) with
  | some p => some ⟨p.2⟩
  | none => none

/-- The character class `[a-z]`. -/
def isLowerAZ (c : Char) : Bool :=
  'a' ≤ c && c ≤ 'z'

/-- The character class `[a-z ,]` of the explicit-HQ patterns. -/
def isLocChar (c : Char) : Bool :=
  isLowerAZ c || c == ' ' || c == ','

/-- The capture group `([a-z ,]+,\s*[a-z]{2})` shared by the three
explicit-HQ patterns of `guess_hq`. -/
def hqGroupRE : RE :=
  RE.grp 1 (RE.cat (RE.plus isLocChar)
    (RE.cat (RE.lit [','])
      (RE.cat (RE.star isSpacePy) (RE.rep isLowerAZ 2 2))))

/-- The `hq_patterns` list of `guess_hq`, in order: "headquartered in",
"based in", "headquarters in", each followed by the location group. -/
def hq_patterns : List RE :=
  [RE.cat (RE.lit "headquartered in ".data) hqGroupRE,
   RE.cat (RE.lit "based in ".data) hqGroupRE,
   RE.cat (RE.lit "headquarters in ".data) hqGroupRE]

/-- Strategy 1 of `guess_hq`: the first explicit pattern that matches
anywhere in the text yields its group(1). -/
def hqExplicitSearch (t : String) : Option String :=
  hq_patterns.findSome? (fun pat =>
    match reSearch pat t with
    | some caps => capGet caps 1
    | none => none)

/-- The post-processing `guess_hq` applies to an explicit-pattern match:
strip, split on commas, and for exactly two parts title-case the city and
upper-case the state, otherwise title-case the whole capture. -/
def formatExplicit (loc : String) : String :=
  let l : String := ⟨trimL loc.data⟩
  let parts := (splitOnCharL ',' l.data).map (fun c => (⟨trimL c⟩ : String))
  match parts with
  | [city, st] => pyTitle city ++ ", " ++ strUpper st
  | _ => pyTitle l

/-- The `hub_map` of `guess_hq`, in its defined priority order. -/
def hub_map : List (List String × String) :=
  [(["new york", "nyc"], "New York, NY"),
   (["brooklyn"], "Brooklyn, NY"),
   (["jersey city"], "Jersey City, NJ"),
   (["stamford", "greenwich", "norwalk"], "Fairfield County, CT"),
   (["boston"], "Boston, MA"),
   (["philadelphia"], "Philadelphia, PA"),
   (["chicago"], "Chicago, IL"),
   (["miami", "orlando", "tampa"], "Florida"),
   (["dallas", "austin", "houston"], "Texas"),
   (["san francisco"], "San Francisco, CA"),
   (["los angeles"], "Los Angeles, CA"),
   (["san jose", "palo alto", "silicon valley"], "Bay Area, CA"),
   (["seattle"], "Seattle, WA"),
   (["denver", "boulder"], "Colorado"),
   (["charlotte"], "Charlotte, NC"),
   (["washington dc", "washington d.c.", "washington, dc"], "Washington, DC"),
   (["london"], "London, UK"),
   (["toronto"], "Toronto, Canada"),
   (["montreal"], "Montreal, Canada"),
   (["vancouver"], "Vancouver, Canada"),
   (["singapore"], "Singapore"),
   (["hong kong"], "Hong Kong")]

/-- Strategy 2 of `guess_hq`: the label of the first hub entry with some
keyword occurring in the text. -/
def hubFind (t : String) : Option String :=
  hub_map.findSome? (fun e =>
    if e.1.any (fun kw => strContains t kw) then some e.2 else none)

/-- The two-letter state alternation of the generic US pattern, in the
order it appears in the source. -/
def US_STATES : List String :=
  ["al", "ak", "az", "ar", "ca", "co", "ct", "de", "fl", "ga", "hi", "id",
   "il", "in", "ia", "ks", "ky", "la", "me", "md", "ma", "mi", "mn", "ms",
   "mo", "mt", "ne", "nv", "nh", "nj", "nm", "ny", "nc", "nd", "oh", "ok",
   "or", "pa", "ri", "sc", "sd", "tn", "tx", "ut", "vt", "va", "wa", "wv",
   "wi", "wy"]

/-- The character class `[a-z .]` of the generic US pattern. -/
def isCityChar (c : Char) : Bool :=
  isLowerAZ c || c == ' ' || c == '.'

/-- Strategy 3 of `guess_hq`: the generic US pattern
`\b([a-z][a-z .]{2,40}),\s*(STATES)(?:\s+\d{5})?\b`. -/
def genericUsRE : RE :=
  RE.cat RE.wb
    (RE.cat (RE.grp 1 (RE.cat (RE.cls isLowerAZ) (RE.rep isCityChar 2 40)))
      (RE.cat (RE.lit [','])
        (RE.cat (RE.star isSpacePy)
          (RE.cat (RE.grp 2 (RE.strs (US_STATES.map String.data)))
            (RE.cat (RE.opt (RE.cat (RE.plus isSpacePy) (RE.rep Char.isDigit 5 5)))
              RE.wb)))))

/-- `guess_hq` from scraper.py: lower-case the text, then try the three
ordered strategies, first match wins; empty string when none matches.
Both capture groups are always present when the generic pattern matches,
so the defensive empty-string arm of the final match is never taken. -/
def guess_hq (text : String) : String :=
  let t := strLower text
  match hqExplicitSearch t with
  | some loc => formatExplicit loc
  | none =>
    match hubFind t with
    | some label => label
    | none =>
      match reSearch genericUsRE t with
      | some caps =>
        match capGet caps 1, capGet caps 2 with
        | some city, some st => pyTitle ⟨trimL city.data⟩ ++ ", " ++ strUpper st
        | _, _ => ""
      | none => ""

/-- One enrichment step of `enrich` from scraper.py, for a single CSV row.
The page fetcher is abstracted as `fetchText : String -> String`
(`fetch_site_text` returns the lower-cased page text, or the empty string
when the request fails, so it is a total function of the URL).  Rows with
an empty (stripped) Website are skipped (`continue`), which the model
expresses by returning `none`. -/
def enrichRow (fetchText : String → String) (row : Row) : Option Row :=
  let url := strTrim row.website
  if url = "" then none
  else
    let domain := domain_from_url url
    let text := fetchText url
    let category := classify_category text
    let fit := classify_fit category
    let hq0 := strTrim row.hq
    let hq := if hq0 = "" then
        (if guess_hq text = "" then hq0 else guess_hq text)
      else hq0
    let category2 := if KNOWN_FINANCIAL_MSPS.contains domain then "Financial MSP" else category
    let fit2 := if KNOWN_FINANCIAL_MSPS.contains domain then "Core" else fit
    let name_l := strLower (strTrim row.name)
    let cls := if KNOWN_COMP_NAMES.contains name_l then "Pattern / Comp / Future Partner"
      else classify_firm fit2 category2
    some { row with category := category2, fit := fit2, hq := normalize_hq hq,
                    classification := cls }

/-- `enrich` from scraper.py: the ordered list of enriched output rows for
an ordered list of input rows. -/
def enrich (fetchText : String → String) (rows : List Row) : List Row :=
  rows.filterMap (enrichRow fetchText)

/-- The merge dedup key for rows with a website:
`Website.strip().lower()`. -/
def websiteNorm (r : Row) : String :=
  strLower (strTrim r.website)

/-- Keep-first deduplication by a key, as performed by pandas
`drop_duplicates` (and by the seen-set loop of the CSV fallback):
a row is kept iff its key is neither in `seen` nor the key of an
earlier kept row. -/
def dedupByKey (key : Row → String) : List Row → List String → List Row
  | [], _ => []
  | r :: rs, seen =>
    if seen.contains (key r) then dedupByKey key rs seen
    else r :: dedupByKey key rs (key r :: seen)

/-- `merge_raw_sources` from scraper.py (the pandas path, the one taken in
the shipped configuration where pandas imports): concatenate the two
source row lists, split into rows with a non-empty normalized website and
rows without, deduplicate the former keeping the first row per normalized
website, deduplicate the latter keeping the first row per raw Name,
reassemble with-site rows first, and apply the optional row cap. -/
def merge_raw_sources (search conf : List Row) (maxTotal : Option Nat) : List Row :=
  let merged := search ++ conf
  let withSite := merged.filter (fun r => !(websiteNorm r == ""))
  let withoutSite := merged.filter (fun r => websiteNorm r == "")
  let deduped := dedupByKey websiteNorm withSite [] ++ dedupByKey (fun r => r.name) withoutSite []
  match maxTotal with
  | some m => if 0 < m ∧ m < deduped.length then deduped.take m else deduped
  | none => deduped

/-- The pure-CSV fallback path of `merge_raw_sources` (taken only when
pandas fails to import): rows whose normalized website is empty are
skipped entirely, and the rest are deduplicated on the normalized
website, first occurrence winning. -/
def mergeFallbackLoad : List Row → List String → List Row
  | [], _ => []
  | r :: rs, seen =>
    let w := websiteNorm r
    if w = "" then mergeFallbackLoad rs seen
    else if seen.contains w then mergeFallbackLoad rs seen
    else r :: mergeFallbackLoad rs (w :: seen)

/-- The fallback merge with its row cap. -/
def merge_fallback (search conf : List Row) (maxTotal : Option Nat) : List Row :=
  let allRows := mergeFallbackLoad (search ++ conf) []
  match maxTotal with
  | some m => if 0 < m ∧ m < allRows.length then allRows.take m else allRows
  | none => allRows

/-- One web-search result as consumed by `run_search_discovery`: the
`title`, `url` and `description` fields of a Brave result (absent fields
modelled as the empty string, which the code treats identically). -/
structure SResult where
  title : String
  url : String
  description : String

/-- The noise-domain skip list of `run_search_discovery`. -/
def SKIP_DOMAINS : List String :=
  ["linkedin.com", "indeed.com", "glassdoor.com", "facebook.com",
   "twitter.com", "youtube.com", "wikipedia.org"]

/-- The mutable state of the `run_search_discovery` loops: the set of seen
domains, the accumulated rows, and the row counter. -/
structure SState where
  seen : List String
  rows : List Row
  total : Nat

/-- The Python cap test `max_rows and total >= max_rows`: false when no
cap is set (None) or the cap is the falsy 0. -/
def capReached (maxRows : Option Nat) (total : Nat) : Bool :=
  match maxRows with
  | none => false
  | some m => !(m == 0) && decide (m ≤ total)

/-- The row a search hit contributes, with the schema constants of
`run_search_discovery`. -/
def mkSearchRow (name domain snippet q : String) : Row :=
  { name := name, website := "https://" ++ domain, hq := "", category := "",
    fit := "", notes := snippet, source := "search:" ++ q, conference := "",
    classification := "" }

/-- The inner result loop of `run_search_discovery`: skip results without
a URL, with a noise domain, or with an already-seen domain; otherwise
record the row and stop (returning `true`) when the cap is reached.  The
pacing sleep has no effect on the produced rows and is omitted. -/
def procResults (q : String) (maxRows : Option Nat) :
    List SResult → SState → SState × Bool
  | [], st => (st, false)
  | r :: rs, st =>
    if r.url = "" then procResults q maxRows rs st
    else
      let domain := domain_from_url r.url
      if SKIP_DOMAINS.any (fun s => strContains domain s) then
        procResults q maxRows rs st
      else if st.seen.contains domain then
        procResults q maxRows rs st
      else
        let name := clean_result_name r.title domain
        let row := mkSearchRow (if name = "" then domain else name) domain r.description q
        let st' : SState := ⟨domain :: st.seen, st.rows ++ [row], st.total + 1⟩
        if capReached maxRows st'.total then (st', true)
        else procResults q maxRows rs st'

/-- The per-query loop of `run_search_discovery` with the search provider
abstracted as `f : query -> Option (list of results)`; `none` models a
raised exception, which the code catches and answers with `continue`.
After a successful query the loop stops when the cap was reached (inside
the result loop or at the trailing check). -/
def runQueries (f : String → Option (List SResult)) (maxRows : Option Nat) :
    List String → SState → SState
  | [], st => st
  | q :: qs, st =>
    match f q with
    | none => runQueries f maxRows qs st
    | some results =>
      let out := procResults q maxRows results st
      if out.2 then out.1
      else if capReached maxRows out.1.total then out.1
      else runQueries f maxRows qs out.1

/-- `SEARCH_QUERIES` from scraper.py. -/
def SEARCH_QUERIES : List String :=
  ["managed IT services for hedge funds",
   "hedge fund MSP New York",
   "hedge fund IT support NYC",
   "IT managed services for investment management firms",
   "managed IT services for broker dealers",
   "MSP for alternative investment firms",
   "MSP for asset management industry",
   "IT services for private equity firms",
   "\"market data\" \"managed services\"",
   "\"market data operations\" consulting",
   "\"market data administration\" services",
   "\"market data\" \"vendor management\" firm",
   "\"market data\" \"exchange reporting\" services",
   "\"market data\" cost optimization consultancy",
   "\"market data\" inventory management consulting",
   "\"trading infrastructure\" \"managed services\"",
   "\"low latency\" \"trading\" \"managed\"",
   "\"ultra low latency\" \"trading\" \"infrastructure\"",
   "\"exchange connectivity\" \"managed\"",
   "\"colocation\" \"trading\" \"managed services\"",
   "\"OMS implementation\" buy side consulting",
   "\"EMS implementation\" trading",
   "\"FIX connectivity\" consulting firm",
   "\"FIX onboarding\" services",
   "\"trading platform\" implementation consulting",
   "\"order management system\" integration partner",
   "\"outsourced trade surveillance\"",
   "\"managed\" \"trade surveillance\" services",
   "\"outsourced compliance\" \"broker dealer\"",
   "\"outsourced CCO\" services",
   "\"best execution\" \"outsourced\" testing",
   "\"regulatory reporting\" managed services"]

/-- The rows written by `run_search_discovery` for a given provider and
cap. -/
def run_search_discovery (f : String → Option (List SResult)) (maxRows : Option Nat) :
    List Row :=
  (runQueries f maxRows SEARCH_QUERIES ⟨[], [], 0⟩).rows

/-- The per-conference loop of `run_conference_scrape`, with fetching and
parsing one conference's listing abstracted as
`g : conference name -> Option (list of rows)`; `none` models a raised
exception, which the code catches and logs before continuing.  On
success the scraped rows are appended; the loop stops once the cap is
reached (the in-`try` check and the loop-end check test the same
condition on the same state). -/
def runConfs (g : String → Option (List Row)) (maxRows : Option Nat) :
    List String → List Row → List Row
  | [], acc => acc
  | c :: cs, acc =>
    let acc' := match g c with
      | none => acc
      | some rows => acc ++ rows
    if capReached maxRows acc'.length then acc'
    else runConfs g maxRows cs acc'

/-- The configured conference names of `run_conference_scrape`. -/
def CONFERENCES : List String :=
  ["FIA_Expo_2024", "TradeTech_FX_USA_2025"]

/-- The rows written by `run_conference_scrape`: the loop output truncated
to the cap when it overshot (a successful scrape can overshoot within one
conference). -/
def run_conference_scrape (g : String → Option (List Row)) (maxRows : Option Nat) :
    List Row :=
  let allRows := runConfs g maxRows CONFERENCES []
  match maxRows with
  | some m => if !(m == 0) && decide (m < allRows.length) then allRows.take m else allRows
  | none => allRows

/-! ## Classifier lemmas and claims C6, C7, C10 -/

/-- `max(score, key=score.get)` over the six-entry score table always
returns one of the six category labels, whatever the scores are. -/
theorem pickMax_six (s1 s2 s3 s4 s5 s6 : Nat) :
    (pickMax (scoreTable s1 s2 s3 s4 s5 s6)).1 ∈ CATEGORIES := by
  unfold pickMax scoreTable
  simp only [List.foldl_cons, List.foldl_nil]
  split_ifs <;> simp [CATEGORIES]

/-- The pick/fallback/override tail of the classifier always lands in the
six-label set. -/
theorem finishScore_mem (s1 s2 s3 s4 s5 s6 f m : Nat) :
    finishScore (scoreTable s1 s2 s3 s4 s5 s6) f m ∈ CATEGORIES := by
  simp only [finishScore]
  split <;> split <;> first
    | exact pickMax_six s1 s2 s3 s4 s5 s6
    | simp [CATEGORIES]

/-- C6: the Category Classifier is total and pure: it is a function of
the text alone (so identical texts give identical results), and for every
input text it returns exactly one member of the fixed six-category set
(each member a non-empty label), never an out-of-set value. -/
theorem c6_classifier_total (text : String) :
    classify_category text ∈ CATEGORIES := by
  unfold classify_category classifyScores
  exact finishScore_mem _ _ _ _ _ _ _ _

/-- C7: on the title "NextGen IT Services For Hedge Funds | Managed IT
Services" the Name Cleaner returns the base (first) segment for every
fallback domain, because both the base and the brand segment look like
marketing, so neither brand-preferring rule fires. -/
theorem c7_name_cleaner_base (d : String) :
    clean_result_name "NextGen IT Services For Hedge Funds | Managed IT Services" d =
      "NextGen IT Services For Hedge Funds" := rfl

/-- With MSP hits only (all other lexicons at zero), the classifier
scores Financial MSP at `msp_hits >= 1` and Generic IT at `1`, and the
first-wins tie-break plus the zero fallback yield Financial MSP. -/
theorem classifyScores_only_msp (m : Nat) (hm : 0 < m) (fx : Bool) :
    classifyScores 0 m 0 0 0 0 fx = "Financial MSP" := by
  obtain ⟨k, rfl⟩ : ∃ k, m = k + 1 := ⟨m - 1, by omega⟩
  simp only [classifyScores, finishScore, scoreTable, pickMax, lookupScore]
  norm_num [List.foldl_cons, List.foldl_nil, List.find?]

/-- C10: for every text with at least one MSP-lexicon hit and no hit in
the finance, trading-infrastructure, market-data, OMS/EMS or reg-ops
lexicons, the classifier returns "Financial MSP", never "Generic IT":
Financial MSP's weak score (the MSP hit count) ties or beats Generic IT's
fixed score of 1 and ties resolve to the first-enumerated category. -/
theorem c10_msp_only_financial (text : String)
    (hm : 0 < countHits MSP_KEYWORDS text)
    (hf : countHits FINANCE_KEYWORDS text = 0)
    (ht : countHits TRADING_INFRA_KEYWORDS text = 0)
    (hd : countHits MARKET_DATA_KEYWORDS text = 0)
    (ho : countHits OMS_EMS_KEYWORDS text = 0)
    (hr : countHits REG_OPS_KEYWORDS text = 0) :
    classify_category text = "Financial MSP" := by
  unfold classify_category
  rw [hf, ht, hd, ho, hr]
  exact classifyScores_only_msp _ hm _

/-- Witness for C10 at the concrete text "help desk": one MSP hit, no
other lexicon hits, and the classifier answers Financial MSP. -/
theorem c10_witness :
    0 < countHits MSP_KEYWORDS "help desk" ∧
    countHits FINANCE_KEYWORDS "help desk" = 0 ∧
    countHits TRADING_INFRA_KEYWORDS "help desk" = 0 ∧
    countHits MARKET_DATA_KEYWORDS "help desk" = 0 ∧
    countHits OMS_EMS_KEYWORDS "help desk" = 0 ∧
    countHits REG_OPS_KEYWORDS "help desk" = 0 ∧
    classify_category "help desk" = "Financial MSP" :=
  ⟨by decide, by decide, by decide, by decide, by decide, by decide,
   c10_msp_only_financial "help desk" (by decide) (by decide) (by decide)
     (by decide) (by decide) (by decide)⟩

/-! ## Enricher claims C2 and C5 -/

/-- C2 counterexample: a record with an empty website reaches the
Enricher and produces no output record at all (the loop `continue`s), so
the Enricher does not output one enriched record per input record. -/
theorem c2_counterexample :
    enrich (fun _ => "")
      [⟨"Ghost Corp", "", "", "", "", "", "conf:FIA_Expo_2024", "FIA_Expo_2024", ""⟩] = [] := rfl

/-- A row with a non-empty stripped website is always enriched to some
output row. -/
theorem enrichRow_some (fetchText : String → String) (r : Row)
    (h : ¬ strTrim r.website = "") : ∃ x, enrichRow fetchText r = some x := by
  simp only [enrichRow]
  rw [if_neg h]
  exact ⟨_, rfl⟩

/-- A row with an empty stripped website is skipped by the Enricher. -/
theorem enrichRow_none (fetchText : String → String) (r : Row)
    (h : strTrim r.website = "") : enrichRow fetchText r = none := by
  simp only [enrichRow]
  rw [if_pos h]

/-- C2 amended: the Enricher outputs exactly one enriched record per
input record whose Website is non-empty after stripping; records with an
empty website are dropped by the Enricher (in addition to the Merger's
deduplication). -/
theorem c2_amended (fetchText : String → String) (rows : List Row) :
    (enrich fetchText rows).length =
      (rows.filter (fun r => !(strTrim r.website == ""))).length := by
  induction rows with
  | nil => rfl
  | cons r rs ih =>
    by_cases h : strTrim r.website = ""
    · have hn := enrichRow_none fetchText r h
      simpa [enrich, List.filterMap_cons, hn, h, List.filter_cons] using ih
    · obtain ⟨x, hx⟩ := enrichRow_some fetchText r h
      simp [enrich, List.filterMap_cons, hx, h, List.filter_cons] at ih ⊢
      omega

/-- C5: for every record whose website domain is on the
known-financial-MSP override list, and for every page fetcher (hence for
every fetched text, the empty text included), the Enricher outputs a
record with category "Financial MSP" and fit "Core", regardless of the
Category Classifier's result on that text. -/
theorem c5_override (fetchText : String → String) (row : Row)
    (hdom : KNOWN_FINANCIAL_MSPS.contains (domain_from_url (strTrim row.website)) = true) :
    ∃ r, enrichRow fetchText row = some r ∧
      r.category = "Financial MSP" ∧ r.fit = "Core" := by
  have hne : ¬ strTrim row.website = "" := by
    intro h
    rw [h] at hdom
    exact absurd hdom (by decide)
  have hmem : domain_from_url (strTrim row.website) ∈ KNOWN_FINANCIAL_MSPS := by
    simpa using hdom
  simp only [enrichRow]
  rw [if_neg hne]
  refine ⟨_, rfl, ?_, ?_⟩ <;> simp [hmem]

/-- Witness for C5: the record for eze-castle.com with an empty fetched
text is forced to category "Financial MSP" and fit "Core". -/
theorem c5_witness :
    KNOWN_FINANCIAL_MSPS.contains
      (domain_from_url (strTrim "https://eze-castle.com")) = true ∧
    ∃ r, enrichRow (fun _ => "")
        ⟨"Eze Castle", "https://eze-castle.com", "", "", "", "", "search:q", "", ""⟩ = some r ∧
      r.category = "Financial MSP" ∧ r.fit = "Core" :=
  ⟨by decide, c5_override (fun _ => "") _ (by decide)⟩

/-! ## Merger lemmas and claims C1, C3, C4 -/

/-- Keep-first deduplication returns a subsequence of its input. -/
theorem dedupByKey_sublist (key : Row → String) :
    ∀ (l : List Row) (seen : List String), List.Sublist (dedupByKey key l seen) l := by
  intro l
  induction l with
  | nil => intro seen; simp [dedupByKey]
  | cons r rs ih =>
    intro seen
    simp only [dedupByKey]
    split
    · exact List.Sublist.cons r (ih seen)
    · exact List.Sublist.cons₂ r (ih _)

/-- Rows surviving deduplication come from the input list. -/
theorem dedupByKey_mem {key : Row → String} {l : List Row} {seen : List String} {r : Row}
    (h : r ∈ dedupByKey key l seen) : r ∈ l :=
  (dedupByKey_sublist key l seen).subset h

/-- For keep-first deduplication, the rows with a given key `n` surviving
are: none if `n` was already seen, else exactly the first input row with
key `n`. -/
theorem dedupByKey_filter_key (key : Row → String) (n : String) :
    ∀ (l : List Row) (seen : List String),
      (dedupByKey key l seen).filter (fun r => key r == n) =
        if seen.contains n then [] else (l.filter (fun r => key r == n)).take 1 := by
  intro l
  induction l with
  | nil => intro seen; simp [dedupByKey]
  | cons r rs ih =>
    intro seen
    simp only [dedupByKey]
    by_cases hs : seen.contains (key r) = true
    · rw [if_pos hs, ih seen]
      by_cases hn : seen.contains n = true
      · rw [if_pos hn, if_pos hn]
      · have hk : ¬ key r = n := by
          intro he; rw [he] at hs; exact hn hs
        rw [if_neg hn, if_neg hn, List.filter_cons]
        have : (key r == n) = false := by simpa using hk
        simp [this]
    · rw [if_neg hs]
      by_cases hk : key r = n
      · have hn : ¬ seen.contains n = true := by
          intro hc; rw [hk] at hs; exact hs hc
        rw [List.filter_cons]
        have hT : (key r == n) = true := by simpa using hk
        simp only [hT, cond_true]
        rw [ih (key r :: seen)]
        have hT2 : (n == key r) = true := by
          simp [hk]
        have : (key r :: seen).contains n = true := by
          simp only [List.contains_cons, hT2, Bool.true_or]
        rw [if_pos this, if_neg hn, List.filter_cons]
        simp [hT]
      · have hF : (key r == n) = false := by simpa using hk
        rw [List.filter_cons]
        simp only [hF, cond_false]
        rw [ih (key r :: seen)]
        have hF2 : (n == key r) = false := by
          simp; intro he; exact hk he.symm
        have : (key r :: seen).contains n = seen.contains n := by
          simp only [List.contains_cons, hF2, Bool.false_or]
        rw [this, List.filter_cons]
        simp [hF]

/-- The uncapped merge is the with-site block (deduplicated on the
normalized website) followed by the empty-website block (deduplicated on
the raw Name). -/
theorem merge_none_eq (a b : List Row) :
    merge_raw_sources a b none =
      dedupByKey websiteNorm ((a ++ b).filter (fun r => !(websiteNorm r == ""))) [] ++
        dedupByKey (fun r => r.name) ((a ++ b).filter (fun r => websiteNorm r == "")) [] := rfl

/-- C1 counterexample: two empty-website records whose names "Acme" and
"acme " agree after trim+lowercase (the claimed dedup key) are both kept
by the Merger, because the code deduplicates empty-website records on the
raw Name column, not on the normalized name. -/
theorem c1_counterexample :
    strLower (strTrim "Acme") = strLower (strTrim "acme ") ∧
    merge_raw_sources
        [⟨"Acme", "", "", "", "", "", "", "", ""⟩]
        [⟨"acme ", "", "", "", "", "", "", "", ""⟩] none =
      [⟨"Acme", "", "", "", "", "", "", "", ""⟩,
       ⟨"acme ", "", "", "", "", "", "", "", ""⟩] :=
  ⟨rfl, rfl⟩

/-- C1 amended: in the uncapped merge (pandas path), records with an
empty normalized website are deduplicated on the exact raw Name: for
every name `n`, the empty-website records of the output carrying name `n`
are exactly the first-seen such input record, so later raw-name
duplicates are discarded and every empty-website record with a unique raw
name is kept. -/
theorem c1_amended (a b : List Row) (n : String) :
    (merge_raw_sources a b none).filter (fun r => websiteNorm r == "" && r.name == n) =
      ((a ++ b).filter (fun r => websiteNorm r == "" && r.name == n)).take 1 := by
  rw [merge_none_eq, List.filter_append]
  have h1 : (dedupByKey websiteNorm ((a ++ b).filter (fun r => !(websiteNorm r == ""))) []).filter
      (fun r => websiteNorm r == "" && r.name == n) = [] := by
    rw [List.filter_eq_nil_iff]
    intro x hx
    have hx2 := (List.mem_filter.mp (dedupByKey_mem hx)).2
    simp only [Bool.not_eq_true'] at hx2
    simp [hx2]
  have h2 : (dedupByKey (fun r => r.name) ((a ++ b).filter (fun r => websiteNorm r == "")) []).filter
      (fun r => websiteNorm r == "" && r.name == n) =
      (dedupByKey (fun r => r.name) ((a ++ b).filter (fun r => websiteNorm r == "")) []).filter
      (fun r => r.name == n) := by
    apply List.filter_congr
    intro x hx
    have hx2 := (List.mem_filter.mp (dedupByKey_mem hx)).2
    simp [hx2]
  rw [h1, h2, dedupByKey_filter_key]
  rw [if_neg (by simp)]
  rw [List.nil_append]
  congr 1
  rw [List.filter_filter]
  apply List.filter_congr
  intro x hx
  exact Bool.and_comm _ _

/-- The with-site part of the merged output is exactly the deduplicated
with-site rows. -/
theorem merge_filter_with (a b : List Row) :
    (merge_raw_sources a b none).filter (fun r => !(websiteNorm r == "")) =
      dedupByKey websiteNorm ((a ++ b).filter (fun r => !(websiteNorm r == ""))) [] := by
  rw [merge_none_eq, List.filter_append]
  have h1 : (dedupByKey websiteNorm ((a ++ b).filter (fun r => !(websiteNorm r == ""))) []).filter
      (fun r => !(websiteNorm r == "")) =
      dedupByKey websiteNorm ((a ++ b).filter (fun r => !(websiteNorm r == ""))) [] := by
    rw [List.filter_eq_self]
    intro x hx
    exact (List.mem_filter.mp (dedupByKey_mem hx)).2
  have h2 : (dedupByKey (fun r => r.name) ((a ++ b).filter (fun r => websiteNorm r == "")) []).filter
      (fun r => !(websiteNorm r == "")) = [] := by
    rw [List.filter_eq_nil_iff]
    intro x hx
    have hx2 := (List.mem_filter.mp (dedupByKey_mem hx)).2
    simp [hx2]
  rw [h1, h2, List.append_nil]

/-- The empty-website part of the merged output is exactly the
deduplicated empty-website rows. -/
theorem merge_filter_without (a b : List Row) :
    (merge_raw_sources a b none).filter (fun r => websiteNorm r == "") =
      dedupByKey (fun r => r.name) ((a ++ b).filter (fun r => websiteNorm r == "")) [] := by
  rw [merge_none_eq, List.filter_append]
  have h1 : (dedupByKey websiteNorm ((a ++ b).filter (fun r => !(websiteNorm r == ""))) []).filter
      (fun r => websiteNorm r == "") = [] := by
    rw [List.filter_eq_nil_iff]
    intro x hx
    have hx2 := (List.mem_filter.mp (dedupByKey_mem hx)).2
    simp only [Bool.not_eq_true'] at hx2
    simp [hx2]
  have h2 : (dedupByKey (fun r => r.name) ((a ++ b).filter (fun r => websiteNorm r == "")) []).filter
      (fun r => websiteNorm r == "") =
      dedupByKey (fun r => r.name) ((a ++ b).filter (fun r => websiteNorm r == "")) [] := by
    rw [List.filter_eq_self]
    intro x hx
    exact (List.mem_filter.mp (dedupByKey_mem hx)).2
  rw [h1, h2, List.nil_append]

/-- C3 counterexample: with an empty-website record scanned before a
with-site record, the merged output lists the with-site record first, so
the output is not in first-encountered order (the pandas path reorders
all empty-website records after all with-site records). -/
theorem c3_counterexample :
    merge_raw_sources
        [⟨"Alpha", "", "", "", "", "", "", "", ""⟩]
        [⟨"Beta", "https://beta.com", "", "", "", "", "", "", ""⟩] none =
      [⟨"Beta", "https://beta.com", "", "", "", "", "", "", ""⟩,
       ⟨"Alpha", "", "", "", "", "", "", "", ""⟩] ∧
    (⟨"Alpha", "", "", "", "", "", "", "", ""⟩ : Row) ≠
      ⟨"Beta", "https://beta.com", "", "", "", "", "", "", ""⟩ :=
  ⟨rfl, by decide⟩

/-- C3 amended: the uncapped merge is deterministic (identical inputs
give identical outputs), and it is order-preserving within each block:
the with-site output rows and the empty-website output rows each form a
subsequence of the inputs scanned in order, and the output is the
with-site block followed by the empty-website block. -/
theorem c3_amended (a b : List Row) :
    (∀ a' b', a' = a → b' = b → merge_raw_sources a' b' none = merge_raw_sources a b none) ∧
    List.Sublist
      ((merge_raw_sources a b none).filter (fun r => !(websiteNorm r == ""))) (a ++ b) ∧
    List.Sublist
      ((merge_raw_sources a b none).filter (fun r => websiteNorm r == "")) (a ++ b) ∧
    merge_raw_sources a b none =
      (merge_raw_sources a b none).filter (fun r => !(websiteNorm r == "")) ++
        (merge_raw_sources a b none).filter (fun r => websiteNorm r == "") := by
  refine ⟨fun a' b' ha hb => by rw [ha, hb], ?_, ?_, ?_⟩
  · rw [merge_filter_with]
    exact (dedupByKey_sublist _ _ _).trans (List.filter_sublist _)
  · rw [merge_filter_without]
    exact (dedupByKey_sublist _ _ _).trans (List.filter_sublist _)
  · rw [merge_filter_with, merge_filter_without, merge_none_eq]

/-- Witness for C3's determinism hypotheses at a concrete input. -/
theorem c3_witness :
    merge_raw_sources [⟨"Alpha", "https://a.com", "", "", "", "", "", "", ""⟩] [] none =
      merge_raw_sources [⟨"Alpha", "https://a.com", "", "", "", "", "", "", ""⟩] [] none :=
  (c3_amended [⟨"Alpha", "https://a.com", "", "", "", "", "", "", ""⟩] []).1 _ _ rfl rfl

/-- C4 counterexample: the websites "HTTPS://Example.com" and
"https://example.com/" do not collapse: trim+lowercase does not remove
the trailing slash, so the two records carry different dedup keys and the
Merger keeps both, not exactly one. -/
theorem c4_counterexample :
    merge_raw_sources
        [⟨"A", "HTTPS://Example.com", "", "", "", "", "", "", ""⟩]
        [⟨"B", "https://example.com/", "", "", "", "", "", "", ""⟩] none =
      [⟨"A", "HTTPS://Example.com", "", "", "", "", "", "", ""⟩,
       ⟨"B", "https://example.com/", "", "", "", "", "", "", ""⟩] := rfl

/-- C4 amended: for two records whose websites are "HTTPS://Example.com"
and "https://example.com" (equal up to case, no trailing slash), the
Merger retains exactly the first-seen record, whatever the other fields
are; with the trailing slash of the original claim the keys differ and
both records are kept. -/
theorem c4_amended (r1 r2 : Row)
    (h1 : r1.website = "HTTPS://Example.com") (h2 : r2.website = "https://example.com") :
    merge_raw_sources [r1] [r2] none = [r1] := by
  have e1 : websiteNorm r1 = "https://example.com" := by
    unfold websiteNorm; rw [h1]; rfl
  have e2 : websiteNorm r2 = "https://example.com" := by
    unfold websiteNorm; rw [h2]; rfl
  rw [merge_none_eq]
  have hne1 : (websiteNorm r1 == "") = false := by rw [e1]; decide
  have hne2 : (websiteNorm r2 == "") = false := by rw [e2]; decide
  show (dedupByKey websiteNorm (List.filter _ [r1, r2]) [] ++
    dedupByKey _ (List.filter _ [r1, r2]) []) = [r1]
  rw [List.filter_cons, List.filter_cons, List.filter_cons, List.filter_cons]
  simp only [hne1, hne2, Bool.not_false, cond_true, cond_false, List.filter_nil]
  simp [dedupByKey, e1, e2]

/-- Witness for C4 amended at two concrete records. -/
theorem c4_witness :
    merge_raw_sources
        [⟨"First", "HTTPS://Example.com", "", "", "", "", "", "", ""⟩]
        [⟨"Second", "https://example.com", "", "", "", "", "", "", ""⟩] none =
      [⟨"First", "HTTPS://Example.com", "", "", "", "", "", "", ""⟩] :=
  c4_amended _ _ rfl rfl

/-! ## HQ Resolver claim C8 -/

/-- C8: for every text on which strategy 1 (the explicit
headquartered-in/based-in/headquarters-in patterns) matches, and which
also carries a hub keyword recognised by strategy 2, the HQ Resolver
returns the formatted explicit-phrase result: the three strategies are
tried in order and the first match wins, wherever each signal occurs in
the text. -/
theorem c8_explicit_wins (text loc lbl : String)
    (hexp : hqExplicitSearch (strLower text) = some loc)
    (_hhub : hubFind (strLower text) = some lbl) :
    guess_hq text = formatExplicit loc := by
  simp only [guess_hq]
  rw [hexp]

/-- Witness for C8 on a text containing both "based in Chicago, IL" and
the hub keyword "new york": the explicit-phrase result "Chicago, IL"
wins. -/
theorem c8_witness :
    hqExplicitSearch (strLower
      "We are based in Chicago, IL. Our team also serves clients in New York.") =
        some "chicago, il" ∧
    hubFind (strLower
      "We are based in Chicago, IL. Our team also serves clients in New York.") =
        some "New York, NY" ∧
    guess_hq "We are based in Chicago, IL. Our team also serves clients in New York." =
      "Chicago, IL" :=
  ⟨by decide, by decide,
   (c8_explicit_wins _ "chicago, il" "New York, NY" (by decide) (by decide)).trans
     (by decide)⟩

/-! ## Runner error-handling claim C9 -/

/-- A failing search query behaves exactly like a query that succeeded
with zero results: the runner processes all following queries the same
way, as long as the row cap has not been reached at entry (an invariant
of the loop from its initial state). -/
theorem runQueries_recover (f : String → Option (List SResult)) (mr : Option Nat) :
    ∀ (qs : List String) (st : SState), capReached mr st.total = false →
      runQueries f mr qs st = runQueries (fun q => some ((f q).getD [])) mr qs st := by
  intro qs
  induction qs with
  | nil => intro st h; rfl
  | cons q qs ih =>
    intro st h
    simp only [runQueries]
    cases hf : f q with
    | none =>
      simp only [Option.getD_none, procResults]
      rw [ih st h]
      simp [h]
    | some rs =>
      simp only [Option.getD_some]
      by_cases hb : (procResults q mr rs st).2 = true
      · simp [hb]
      · simp only [Bool.not_eq_true] at hb
        by_cases hc : capReached mr (procResults q mr rs st).1.total = true
        · simp [hb, hc]
        · simp only [Bool.not_eq_true] at hc
          simp [hb, hc, ih _ hc]

/-- A failing conference scrape behaves exactly like one that returned no
exhibitors: the runner continues with the remaining conferences. -/
theorem runConfs_recover (g : String → Option (List Row)) (mr : Option Nat) :
    ∀ (cs : List String) (acc : List Row), capReached mr acc.length = false →
      runConfs g mr cs acc = runConfs (fun c => some ((g c).getD [])) mr cs acc := by
  intro cs
  induction cs with
  | nil => intro acc h; rfl
  | cons c cs ih =>
    intro acc h
    simp only [runConfs]
    cases hg : g c with
    | none =>
      simp only [Option.getD_none, List.append_nil]
      simp [h, ih acc h]
    | some rows =>
      simp only [Option.getD_some]
      by_cases hc : capReached mr (acc ++ rows).length = true
      · have hc2 := hc
        simp only [List.length_append] at hc2
        simp [hc2]
      · simp only [Bool.not_eq_true] at hc
        have hc2 := hc
        simp only [List.length_append] at hc2
        simp [hc2, ih _ hc]

/-- C9: a failure of one per-item operation never aborts the processing
of subsequent items: running the search-discovery loop (respectively the
conference loop) with a provider that fails on some units equals running
it with the provider patched to answer those units with zero results, so
every following unit is still processed, the failed unit contributes no
rows and the successful units contribute exactly their rows. -/
theorem c9_failures_skipped (f : String → Option (List SResult))
    (g : String → Option (List Row)) (mr mc : Option Nat)
    (qs cs : List String) (st : SState) (acc : List Row)
    (h1 : capReached mr st.total = false)
    (h2 : capReached mc acc.length = false) :
    runQueries f mr qs st = runQueries (fun q => some ((f q).getD [])) mr qs st ∧
    runConfs g mc cs acc = runConfs (fun c => some ((g c).getD [])) mc cs acc :=
  ⟨runQueries_recover f mr qs st h1, runConfs_recover g mc cs acc h2⟩

/-- A concrete provider that fails on the query "bad" only. -/
def c9f : String → Option (List SResult) := fun q =>
  if q == "bad" then none else some [⟨"Title", "https://one.com", "d"⟩]

/-- A concrete conference scraper that fails on the first conference
only. -/
def c9g : String → Option (List Row) := fun c =>
  if c == "FIA_Expo_2024" then none
  else some [⟨"Conf Co", "https://conf.com", "", "", "", "",
    "conf:TradeTech_FX_USA_2025", "TradeTech_FX_USA_2025", ""⟩]

/-- Witness for C9 with uncapped runs from the initial states: a failure
in the middle query and in the first conference leaves the runs equal to
the patched zero-result runs. -/
theorem c9_witness :
    capReached none (SState.mk [] [] 0).total = false ∧
    capReached none ([] : List Row).length = false ∧
    runQueries c9f none ["good", "bad", "later"] ⟨[], [], 0⟩ =
      runQueries (fun q => some ((c9f q).getD [])) none ["good", "bad", "later"] ⟨[], [], 0⟩ ∧
    runConfs c9g none CONFERENCES [] =
      runConfs (fun c => some ((c9g c).getD [])) none CONFERENCES [] :=
  ⟨rfl, rfl,
   (c9_failures_skipped c9f c9g none none ["good", "bad", "later"] CONFERENCES
     ⟨[], [], 0⟩ [] rfl rfl).1,
   (c9_failures_skipped c9f c9g none none ["good", "bad", "later"] CONFERENCES
     ⟨[], [], 0⟩ [] rfl rfl).2⟩

end Scraper
